import Mathlib

/-!
# Verification of the Coinbene wrapper and the order book synchronization spec

This file gives a shallow embedding of `exchanges/coinbene/coinbene_wrapper.go`
(the Coinbene exchange wrapper of gocryptotrader) together with a model of the
order book synchronizer described by the specification, and proves the claims
about them.

Conventions:
* Go's `float64` prices, amounts and volumes are modelled as `Rat`; timestamps
  (`time.Time`) as `Int` (Unix epoch); sequence numbers as `Nat`.
* External collaborators that are called by the wrapper but whose code is not
  part of the embedded sources (currency formatting, REST transport, the
  ticker/orderbook stores, validation helpers) are supplied through an
  environment record `Env` of oracle functions; each wrapper operation also
  returns the list of REST requests it issued, so that "issues no request" and
  "does not retry" are statable.
* Go's `(value, error)` returns are modelled as `Except GctError value` when
  the value is meaningless on error, and as `value × Option GctError` when the
  code returns a meaningful value together with the error.
-/

/-- Asset classes of `asset.Item`. `empty` is the zero value of the Go type. -/
inductive AssetItem where
  | empty
  | spot
  | perpetualSwap
  | margin
  | futures
deriving DecidableEq, Repr

/-- String rendering of an asset type (as used in error messages). -/
def AssetItem.str : AssetItem → String
  | .empty => ""
  | .spot => "spot"
  | .perpetualSwap => "perpetualswap"
  | .margin => "margin"
  | .futures => "futures"

/-- A currency pair (`currency.Pair`). -/
structure Pair where
  base : String
  quote : String
deriving DecidableEq, Repr

/-- Rendering of a pair as a request symbol (`Pair.String()`). -/
def Pair.str (p : Pair) : String := p.base ++ "/" ++ p.quote

/-- Order sides of `order.Side`; the wrapper only supports `buy` and `sell`. -/
inductive OrderSide where
  | buy
  | sell
  | bid
  | ask
  | anySide
deriving DecidableEq, Repr

/-- String rendering of an order side (`Side.String()`). -/
def OrderSide.str : OrderSide → String
  | .buy => "BUY"
  | .sell => "SELL"
  | .bid => "BID"
  | .ask => "ASK"
  | .anySide => "ANY"

/-- Errors produced by the wrapper or by the external collaborators. -/
inductive GctError where
  | unsupportedAsset (exchName : String) (a : AssetItem)
  | sideNotSupported (side : OrderSide)
  | restError (code : Nat)
  | formatError (code : Nat)
  | validationError (code : Nat)
  | parseError (what : String)
  | storeError (code : Nat)
  | crossedBook
  | negativeAmount
deriving DecidableEq, Repr

/-- Rendered message of an error; an `unsupportedAsset` error names the asset. -/
def GctError.message : GctError → String
  | .unsupportedAsset n a => n ++ " does not support asset type " ++ a.str
  | .sideNotSupported s => s.str ++ " orderside is not supported by this exchange"
  | .restError c => "rest error " ++ toString c
  | .formatError c => "format error " ++ toString c
  | .validationError c => "validation error " ++ toString c
  | .parseError w => w
  | .storeError c => "store error " ++ toString c
  | .crossedBook => "orderbook is crossed"
  | .negativeAmount => "negative amount in orderbook"

/-- A JSON array element of a candle row (`interface{}` in Go): either a JSON
string or some other JSON value. -/
inductive JVal where
  | str (s : String)
  | nonstr
deriving DecidableEq, Repr

/-- Kline intervals (`kline.Interval`); `unset` is the zero value. -/
inductive KlineInterval where
  | unset
  | oneMin
  | threeMin
  | fiveMin
  | fifteenMin
  | thirtyMin
  | oneHour
  | twoHour
  | fourHour
  | sixHour
  | twelveHour
  | oneDay
  | threeDay
  | oneWeek
  | oneMonth
deriving DecidableEq, Repr

/-- An entry of the raw REST order book response (`Orderbook` item: price,
amount and order count). -/
structure RawOBItem where
  price : Rat
  amount : Rat
  count : Nat
deriving DecidableEq, Repr

/-- The raw REST order book response (`Orderbook` in the Coinbene package). -/
structure Orderbook where
  bids : List RawOBItem
  asks : List RawOBItem
deriving DecidableEq, Repr

/-- A canonical order book level (`orderbook.Item`). -/
structure OBItem where
  price : Rat
  amount : Rat
  orderCount : Nat
deriving DecidableEq, Repr

/-- A canonical order book (`orderbook.Base`). -/
structure OrderbookBase where
  exchange : String
  pair : Pair
  asset : AssetItem
  verifyOrderbook : Bool
  bids : List OBItem
  asks : List OBItem
deriving DecidableEq, Repr

/-- A raw spot ticker returned by `GetTickers`. -/
structure SpotTicker where
  symbol : String
  latestPrice : Rat
  dailyHigh : Rat
  dailyLow : Rat
  bestBid : Rat
  bestAsk : Rat
  dailyVolume : Rat
deriving DecidableEq, Repr

/-- A raw swap ticker returned by `GetSwapTickers`. -/
structure SwapTick where
  lastPrice : Rat
  high24Hour : Rat
  low24Hour : Rat
  bestBidPrice : Rat
  bestAskPrice : Rat
  volume24Hour : Rat
  timestamp : Int
deriving DecidableEq, Repr

/-- The canonical ticker record handed to `ticker.ProcessTicker`. -/
structure TickerPrice where
  pair : Pair
  last : Rat
  high : Rat
  low : Rat
  bid : Rat
  ask : Rat
  volume : Rat
  lastUpdated : Int
  exchangeName : String
  assetType : AssetItem
deriving DecidableEq, Repr

/-- A raw trade returned by `GetTrades`. -/
structure RawTrade where
  direction : String
  price : Rat
  volume : Rat
  tradeTime : Int
deriving DecidableEq, Repr

/-- A canonical trade (`trade.Data`). -/
structure TradeData where
  exchange : String
  currencyPair : Pair
  assetType : AssetItem
  side : OrderSide
  price : Rat
  amount : Rat
  timestamp : Int
deriving DecidableEq, Repr

/-- An order submission (`order.Submit`); the order type and client id are kept
as strings since the wrapper only forwards their string forms. -/
structure OrderSubmit where
  pair : Pair
  side : OrderSide
  price : Rat
  amount : Rat
  otype : String
  clientID : String
deriving DecidableEq, Repr

/-- The response of `SubmitOrder` (`order.SubmitResponse`). -/
structure SubmitResponse where
  isOrderPlaced : Bool
  orderID : String
deriving DecidableEq, Repr

/-- The exchange acknowledgement of `PlaceSpotOrder`. -/
structure PlaceOrderResp where
  orderID : String
deriving DecidableEq, Repr

/-- A cancellation request (`order.Cancel`). -/
structure OrderCancel where
  pair : Pair
  assetType : AssetItem
  orderID : String
deriving DecidableEq, Repr

/-- An open order row returned by `FetchOpenSpotOrders`. -/
structure OrderInfo where
  orderID : String
deriving DecidableEq, Repr

/-- The response of `CancelAllOrders` (`order.CancelAllResponse`); the Go
`map[string]string` status map is modelled as a lookup function. -/
structure CancelAllResponse where
  status : String → Option String

/-- A candle (`kline.Candle`). -/
structure Candle where
  time : Int
  openP : Rat
  highP : Rat
  lowP : Rat
  closeP : Rat
  volume : Rat
deriving DecidableEq, Repr

/-- A kline item (`kline.Item`). -/
structure KlineItem where
  exchange : String
  pair : Pair
  interval : KlineInterval
  asset : AssetItem
  candles : List Candle
deriving DecidableEq, Repr

/-- The zero value `kline.Item{}` returned on every error path. -/
def emptyKlineItem : KlineItem :=
  { exchange := "", pair := { base := "", quote := "" }, interval := .unset,
    asset := .empty, candles := [] }

/-- A spot pair row of `GetAllPairs`. -/
structure SpotPairData where
  symbol : String
deriving DecidableEq, Repr

/-- A swap instrument row of `GetSwapInstruments`. -/
structure SwapInstrument where
  instrumentID : Pair
deriving DecidableEq, Repr

/-- A pair format (`currency.PairFormat`): delimiter and upper-casing. -/
structure PairFormat where
  delimiter : String
  uppercase : Bool
deriving DecidableEq, Repr

/-- `Pair.Format(delimiter, uppercase).String()`. -/
def formatPairWith (f : PairFormat) (p : Pair) : String :=
  if f.uppercase then p.base.toUpper ++ f.delimiter ++ p.quote.toUpper
  else p.base.toLower ++ f.delimiter ++ p.quote.toLower

/-- The slice of `config.Exchange` that `Setup` reads. -/
structure ExchConfig where
  enabled : Bool
  websocketResponseCheckTimeout : Nat
  websocketResponseMaxLimit : Nat
deriving DecidableEq, Repr

/-- The fields of `stream.WebsocketSetup` that the claims are about. -/
structure WebsocketSetupRec where
  defaultURL : String
  runningURL : String
  sortBuffer : Bool
deriving DecidableEq, Repr

/-- The fields of `stream.ConnectionSetup` passed by `Setup`. -/
structure ConnectionSetupRec where
  responseCheckTimeout : Nat
  responseMaxLimit : Nat
deriving DecidableEq, Repr

/-- One outbound REST request issued by a wrapper operation. -/
inductive RestCall where
  | getAllPairsCall
  | getSwapInstrumentsCall
  | getOrderbookCall (symbol : String) (depth : Nat)
  | getSwapOrderbookCall (symbol : String) (depth : Nat)
  | getTickersCall
  | getSwapTickersCall
  | getTradesCall (symbol : String) (count : Nat)
  | placeSpotOrderCall (symbol : String)
  | fetchOpenSpotOrdersCall (symbol : String)
  | getKlinesCall (symbol : String)
  | getSwapKlinesCall (symbol : String)
deriving DecidableEq, Repr

/-- The external collaborators of the wrapper: REST endpoints, currency
formatting, stores and validators.  Everything the wrapper calls but whose
code lives outside the embedded file is an oracle field here. -/
structure Env where
  formatExchangeCurrency : Pair → AssetItem → Except GctError Pair
  getEnabledPairs : AssetItem → Except GctError (List Pair)
  getAllPairs : Except GctError (List SpotPairData)
  getSwapInstruments : Except GctError (List SwapInstrument)
  getPairFormat : AssetItem → Bool → Except GctError PairFormat
  getOrderbook : String → Nat → Except GctError Orderbook
  getSwapOrderbook : String → Nat → Except GctError Orderbook
  getTickers : Except GctError (List SpotTicker)
  getSwapTickers : Except GctError (String → Option SwapTick)
  parsePair : String → Except GctError Pair
  processTicker : TickerPrice → Option GctError
  getTrades : String → Nat → Except GctError (List RawTrade)
  addTradesToBuffer : List TradeData → Option GctError
  validateSubmit : OrderSubmit → Option GctError
  placeSpotOrder : Rat → Rat → String → String → String → String → Nat →
    Except GctError PlaceOrderResp
  validateCancel : OrderCancel → Option GctError
  fetchOpenSpotOrders : String → Except GctError (List OrderInfo)
  cancelSpotOrder : String → Except GctError Unit
  obGet : String → Pair → AssetItem → Except GctError OrderbookBase
  validateKline : Pair → AssetItem → KlineInterval → Option GctError
  getKlines : String → Int → Int → String → Except GctError (List (List JVal))
  getSwapKlines : String → Int → Int → String → Except GctError (List (List JVal))
  parseRFC3339 : String → Except GctError Int
  parseFloat : String → Except GctError Rat
  setupDefaults : ExchConfig → Option GctError
  getWebsocketURL : Except GctError String
  websocketSetup : WebsocketSetupRec → Option GctError
  setupNewConnection : ConnectionSetupRec → Option GctError

/-- The state of the `Coinbene` exchange object that the claims are about. -/
structure Coinbene where
  name : String
  enabled : Bool
  verbose : Bool
  canVerifyOrderbook : Bool
  websocketResponseCheckTimeout : Nat
  websocketResponseMaxLimit : Nat
  websocketOrderbookBufferLimit : Nat
  supportedAssets : List AssetItem
deriving DecidableEq, Repr

/-- `exchange.DefaultWebsocketResponseCheckTimeout` (exact value immaterial). -/
def defaultWebsocketResponseCheckTimeout : Nat := 30

/-- `exchange.DefaultWebsocketResponseMaxLimit` (exact value immaterial). -/
def defaultWebsocketResponseMaxLimit : Nat := 7000

/-- `exchange.DefaultWebsocketOrderbookBufferLimit` (exact value immaterial). -/
def defaultWebsocketOrderbookBufferLimit : Nat := 5

/-- The websocket contract URL constant of the Coinbene package. -/
def wsContractURL : String := "wss://ws.coinbene.com/stream/ws"

/-- `c.SupportsAsset(a)`: the asset types stored by `SetDefaults`. -/
def SupportsAsset (c : Coinbene) (a : AssetItem) : Bool :=
  decide (a ∈ c.supportedAssets)

/-- `SetDefaults`: installs the name, the enabled flags, the asset pair
stores for spot and perpetual swap, and the websocket limits
(`WebsocketResponseCheckTimeout`, `WebsocketResponseMaxLimit`,
`WebsocketOrderbookBufferLimit`). -/
def SetDefaults (c : Coinbene) : Coinbene :=
  { c with
    name := "Coinbene"
    enabled := true
    verbose := true
    supportedAssets := [.spot, .perpetualSwap]
    websocketResponseCheckTimeout := defaultWebsocketResponseCheckTimeout
    websocketResponseMaxLimit := defaultWebsocketResponseMaxLimit
    websocketOrderbookBufferLimit := defaultWebsocketOrderbookBufferLimit }

/-- `Setup`: when the exchange is disabled it only disables and returns; else
it configures the websocket (passing `SortBuffer: true`) and the websocket
connection (passing the configured response-check timeout and response max
limit).  The returned records are the arguments passed to
`Websocket.Setup` and `Websocket.SetupNewConnection`. -/
def Setup (env : Env) (exch : ExchConfig) :
    Except GctError (Option (WebsocketSetupRec × ConnectionSetupRec)) :=
  if exch.enabled = false then .ok none
  else
    match env.setupDefaults exch with
    | some e => .error e
    | none =>
      match env.getWebsocketURL with
      | .error e => .error e
      | .ok wsRunningURL =>
        let wsRec : WebsocketSetupRec :=
          { defaultURL := wsContractURL, runningURL := wsRunningURL,
            sortBuffer := true }
        match env.websocketSetup wsRec with
        | some e => .error e
        | none =>
          let connRec : ConnectionSetupRec :=
            { responseCheckTimeout := exch.websocketResponseCheckTimeout,
              responseMaxLimit := exch.websocketResponseMaxLimit }
          match env.setupNewConnection connRec with
          | some e => .error e
          | none => .ok (some (wsRec, connRec))

/-- `FetchTradablePairs`: fails on an unsupported asset type naming it, else
lists the tradable symbols of the asset class. -/
def FetchTradablePairs (env : Env) (c : Coinbene) (a : AssetItem) :
    Except GctError (List String) × List RestCall :=
  if SupportsAsset c a = false then
    (.error (.unsupportedAsset c.name a), [])
  else
    match a with
    | .spot =>
      match env.getAllPairs with
      | .error e => (.error e, [.getAllPairsCall])
      | .ok pairs => (.ok (pairs.map SpotPairData.symbol), [.getAllPairsCall])
    | .perpetualSwap =>
      match env.getSwapInstruments with
      | .error e => (.error e, [.getSwapInstrumentsCall])
      | .ok instruments =>
        match env.getPairFormat .perpetualSwap false with
        | .error e => (.error e, [.getSwapInstrumentsCall])
        | .ok pFmt =>
          (.ok (instruments.map fun i => formatPairWith pFmt i.instrumentID),
            [.getSwapInstrumentsCall])
    | _ => (.ok [], [])

/-- Processing loop of the spot branch of `UpdateTickers`: parse each symbol,
skip pairs that are not enabled, publish the rest to the ticker store;
the first error aborts the loop. -/
def processSpotTickers (env : Env) (c : Coinbene) (a : AssetItem)
    (allPairs : List Pair) : List SpotTicker → Option GctError
  | [] => none
  | t :: rest =>
    match env.parsePair t.symbol with
    | .error e => some e
    | .ok newP =>
      if decide (newP ∈ allPairs) = false then
        processSpotTickers env c a allPairs rest
      else
        match env.processTicker
          { pair := newP, last := t.latestPrice, high := t.dailyHigh,
            low := t.dailyLow, bid := t.bestBid, ask := t.bestAsk,
            volume := t.dailyVolume, lastUpdated := 0,
            exchangeName := c.name, assetType := a } with
        | some e => some e
        | none => processSpotTickers env c a allPairs rest

/-- Processing loop of the perpetual-swap branch of `UpdateTickers`: format
each enabled pair, skip pairs missing from the response, publish the rest. -/
def processSwapTickers (env : Env) (c : Coinbene) (a : AssetItem)
    (tickers : String → Option SwapTick) : List Pair → Option GctError
  | [] => none
  | p :: rest =>
    match env.formatExchangeCurrency p a with
    | .error e => some e
    | .ok fpair =>
      match tickers fpair.str with
      | none => processSwapTickers env c a tickers rest
      | some tick =>
        match env.processTicker
          { pair := p, last := tick.lastPrice, high := tick.high24Hour,
            low := tick.low24Hour, bid := tick.bestBidPrice,
            ask := tick.bestAskPrice, volume := tick.volume24Hour,
            lastUpdated := tick.timestamp, exchangeName := c.name,
            assetType := a } with
        | some e => some e
        | none => processSwapTickers env c a tickers rest

/-- `UpdateTickers`: refreshes the ticker store for every enabled pair of the
asset type; returns the error (Go returns only `error`) and the REST trace. -/
def UpdateTickers (env : Env) (c : Coinbene) (a : AssetItem) :
    Option GctError × List RestCall :=
  if SupportsAsset c a = false then
    (some (.unsupportedAsset c.name a), [])
  else
    match env.getEnabledPairs a with
    | .error e => (some e, [])
    | .ok allPairs =>
      match a with
      | .spot =>
        match env.getTickers with
        | .error e => (some e, [.getTickersCall])
        | .ok tickers =>
          (processSpotTickers env c a allPairs tickers, [.getTickersCall])
      | .perpetualSwap =>
        match env.getSwapTickers with
        | .error e => (some e, [.getSwapTickersCall])
        | .ok tickers =>
          (processSwapTickers env c a tickers allPairs, [.getSwapTickersCall])
      | _ => (none, [])

/-- The order book skeleton that `UpdateOrderbook` builds before fetching:
every book carries `VerifyOrderbook` copied from `c.CanVerifyOrderbook`. -/
def newOrderBook (c : Coinbene) (p : Pair) (a : AssetItem) : OrderbookBase :=
  { exchange := c.name, pair := p, asset := a,
    verifyOrderbook := c.canVerifyOrderbook, bids := [], asks := [] }

/-- Conversion of a raw response level to a canonical level; the order count
is only carried over for perpetual swaps. -/
def obItemOf (a : AssetItem) (x : RawOBItem) : OBItem :=
  { price := x.price, amount := x.amount,
    orderCount := if a = .perpetualSwap then x.count else 0 }

/-- Largest price of a list of levels. -/
def maxPrice : List OBItem → Option Rat
  | [] => none
  | x :: t =>
    match maxPrice t with
    | none => some x.price
    | some m => some (max x.price m)

/-- Smallest price of a list of levels. -/
def minPrice : List OBItem → Option Rat
  | [] => none
  | x :: t =>
    match minPrice t with
    | none => some x.price
    | some m => some (min x.price m)

/-- Best (highest) bid of a book. -/
def bestBid (b : OrderbookBase) : Option Rat := maxPrice b.bids

/-- Best (lowest) ask of a book. -/
def bestAsk (b : OrderbookBase) : Option Rat := minPrice b.asks

/-- The crossed-book check: best bid ≥ best ask (glossary: a crossed book). -/
def crossedCheck (b : OrderbookBase) : Bool :=
  match bestBid b, bestAsk b with
  | some bb, some ba => decide (ba ≤ bb)
  | _, _ => false

/-- Modelled from the spec: `orderbook.Base.Process` is not part of the
embedded sources.  Per the spec, verification (when the book's
`VerifyOrderbook` flag is enabled) asserts non-negative amounts and a
non-crossed best bid/ask, and a book is published only after the checks
pass; `orderbook.Get` then returns the published book. -/
def OrderbookBase.process (b : OrderbookBase) : Except GctError OrderbookBase :=
  if b.verifyOrderbook then
    if b.bids.any (fun x => decide (x.amount < 0)) ||
        b.asks.any (fun x => decide (x.amount < 0)) then
      .error .negativeAmount
    else if crossedCheck b then .error .crossedBook
    else .ok b
  else .ok b

/-- The snapshot fetch selected by the asset type inside `UpdateOrderbook`:
spot uses `GetOrderbook`, perpetual swap uses `GetSwapOrderbook`; for any
other asset type the Go switch leaves the zero-valued response and a nil
error. -/
def obFetch (env : Env) (a : AssetItem) (symbol : String) (depth : Nat) :
    Except GctError Orderbook :=
  match a with
  | .spot => env.getOrderbook symbol depth
  | .perpetualSwap => env.getSwapOrderbook symbol depth
  | _ => .ok { bids := [], asks := [] }

/-- The REST trace of the snapshot fetch of `UpdateOrderbook`. -/
def obFetchCalls (a : AssetItem) (symbol : String) (depth : Nat) :
    List RestCall :=
  match a with
  | .spot => [.getOrderbookCall symbol depth]
  | .perpetualSwap => [.getSwapOrderbookCall symbol depth]
  | _ => []

/-- `UpdateOrderbook`: builds a book flagged with `CanVerifyOrderbook`,
fetches the snapshot at the hard-coded depth 100 (the code carries a TO-DO
saying the depth is not yet configurable), fills the sides, publishes via
`Process` and returns the published book. -/
def UpdateOrderbook (env : Env) (c : Coinbene) (p : Pair) (a : AssetItem) :
    Except GctError OrderbookBase × List RestCall :=
  let book := newOrderBook c p a
  if SupportsAsset c a = false then
    (.error (.unsupportedAsset c.name a), [])
  else
    match env.formatExchangeCurrency p a with
    | .error e => (.error e, [])
    | .ok fpair =>
      match obFetch env a fpair.str 100 with
      | .error e => (.error e, obFetchCalls a fpair.str 100)
      | .ok tempResp =>
        let book :=
          { book with
            asks := tempResp.asks.map (obItemOf a)
            bids := tempResp.bids.map (obItemOf a) }
        match book.process with
        | .error e => (.error e, obFetchCalls a fpair.str 100)
        | .ok published => (.ok published, obFetchCalls a fpair.str 100)

/-- `FetchOrderbook`: rejects unsupported asset types, serves the stored book
when present and falls back to `UpdateOrderbook`. -/
def FetchOrderbook (env : Env) (c : Coinbene) (p : Pair) (a : AssetItem) :
    Except GctError OrderbookBase × List RestCall :=
  if SupportsAsset c a = false then
    (.error (.unsupportedAsset c.name a), [])
  else
    match env.obGet c.name p a with
    | .error _ => UpdateOrderbook env c p a
    | .ok ob => (.ok ob, [])

/-- Ascending-timestamp order on trades. -/
def tradeLE (a b : TradeData) : Prop := a.timestamp ≤ b.timestamp

instance : DecidableRel tradeLE := fun a b =>
  inferInstanceAs (Decidable (a.timestamp ≤ b.timestamp))

instance : IsTotal TradeData tradeLE :=
  ⟨fun a b => Int.le_total a.timestamp b.timestamp⟩

instance : IsTrans TradeData tradeLE :=
  ⟨fun _ _ _ hab hbc => le_trans hab hbc⟩

/-- Modelled from the spec: `trade.ByDate` sorting is not part of the embedded
sources; per the spec trades are ordered ascending by timestamp. -/
def sortTradesByDate (l : List TradeData) : List TradeData :=
  List.insertionSort tradeLE l

/-- `GetRecentTrades`: formats the pair, fetches the most recent trades,
converts them to canonical trades, feeds the trade buffer and returns them
sorted ascending by timestamp. -/
def GetRecentTrades (env : Env) (c : Coinbene) (p : Pair) (a : AssetItem) :
    Except GctError (List TradeData) × List RestCall :=
  match env.formatExchangeCurrency p a with
  | .error e => (.error e, [])
  | .ok fp =>
    match env.getTrades fp.str 100 with
    | .error e => (.error e, [.getTradesCall fp.str 100])
    | .ok tradeData =>
      let resp := tradeData.map fun t =>
        { exchange := c.name, currencyPair := fp, assetType := a,
          side := if t.direction = "sell" then OrderSide.sell else OrderSide.buy,
          price := t.price, amount := t.volume,
          timestamp := t.tradeTime : TradeData }
      match env.addTradesToBuffer resp with
      | some e => (.error e, [.getTradesCall fp.str 100])
      | none => (.ok (sortTradesByDate resp), [.getTradesCall fp.str 100])

/-- `SubmitOrder`: validates, rejects any side other than buy/sell, formats
and places the order; on acceptance marks the response placed with the
exchange-assigned order id. -/
def SubmitOrder (env : Env) (c : Coinbene) (s : OrderSubmit) :
    Except GctError SubmitResponse × List RestCall :=
  match env.validateSubmit s with
  | some e => (.error e, [])
  | none =>
    if s.side ≠ .buy ∧ s.side ≠ .sell then
      (.error (.sideNotSupported s.side), [])
    else
      match env.formatExchangeCurrency s.pair .spot with
      | .error e => (.error e, [])
      | .ok fpair =>
        match env.placeSpotOrder s.price s.amount fpair.str s.side.str
            s.otype s.clientID 0 with
        | .error e => (.error e, [.placeSpotOrderCall fpair.str])
        | .ok tempResp =>
          (.ok { isOrderPlaced := true, orderID := tempResp.orderID },
            [.placeSpotOrderCall fpair.str])

/-- `true` exactly on `Except.ok`. -/
def exceptOk : Except GctError Unit → Bool
  | .ok _ => true
  | .error _ => false

/-- Overwriting insertion into the modelled Go map. -/
def mapSet (m : String → Option String) (k v : String) :
    String → Option String :=
  fun q => if q = k then some v else m q

/-- The cancellation loop of `CancelAllOrders`: each open order is cancelled
and recorded as "Success" or "Failed"; a failure never aborts the loop. -/
def buildStatus (env : Env) : List OrderInfo → (String → Option String) →
    (String → Option String)
  | [], m => m
  | o :: rest, m =>
    buildStatus env rest
      (mapSet m o.orderID
        (if exceptOk (env.cancelSpotOrder o.orderID) then "Success"
         else "Failed"))

/-- `CancelAllOrders`: validates, formats, fetches the open orders of the pair
and cancels each one, recording per-order outcomes; the operation itself
only fails before the loop. -/
def CancelAllOrders (env : Env) (c : Coinbene) (oc : OrderCancel) :
    CancelAllResponse × Option GctError :=
  match env.validateCancel oc with
  | some e => ({ status := fun _ => none }, some e)
  | none =>
    match env.formatExchangeCurrency oc.pair oc.assetType with
    | .error e => ({ status := fun _ => none }, some e)
    | .ok fpair =>
      match env.fetchOpenSpotOrders fpair.str with
      | .error e => ({ status := fun _ => none }, some e)
      | .ok orders =>
        ({ status := buildStatus env orders (fun _ => none) }, none)

/-- `FormatExchangeKlineInterval`: minutes for intraday intervals, letters for
day/week/month, empty string otherwise. -/
def FormatExchangeKlineInterval : KlineInterval → String
  | .oneMin => "1"
  | .threeMin => "3"
  | .fiveMin => "5"
  | .fifteenMin => "15"
  | .thirtyMin => "30"
  | .oneHour => "60"
  | .twoHour => "120"
  | .fourHour => "240"
  | .sixHour => "360"
  | .twelveHour => "720"
  | .oneDay => "D"
  | .oneWeek => "W"
  | .oneMonth => "M"
  | _ => ""

/-- The string at index `i` of a candle row, when that element is a JSON
string (the Go type assertion `.(string)`). -/
def strField (row : List JVal) (i : Nat) : Option String :=
  match row[i]? with
  | some (.str s) => some s
  | _ => none

/-- Per-row candle parser of `GetHistoricCandles`: requires at least 6 fields,
string-typed fields, an RFC3339 timestamp in field 0 and floats in fields
1-5. -/
def processRow (env : Env) (row : List JVal) : Except GctError Candle :=
  if row.length < 6 then .error (.parseError "unexpected candle data length")
  else
    match strField row 0 with
    | none => .error (.parseError "timestamp conversion failed")
    | some s0 =>
      match env.parseRFC3339 s0 with
      | .error e => .error e
      | .ok t =>
        match strField row 1 with
        | none => .error (.parseError "open conversion failed")
        | some s1 =>
          match env.parseFloat s1 with
          | .error e => .error e
          | .ok o =>
            match strField row 2 with
            | none => .error (.parseError "high conversion failed")
            | some s2 =>
              match env.parseFloat s2 with
              | .error e => .error e
              | .ok h =>
                match strField row 3 with
                | none => .error (.parseError "low conversion failed")
                | some s3 =>
                  match env.parseFloat s3 with
                  | .error e => .error e
                  | .ok lo =>
                    match strField row 4 with
                    | none => .error (.parseError "close conversion failed")
                    | some s4 =>
                      match env.parseFloat s4 with
                      | .error e => .error e
                      | .ok cl =>
                        match strField row 5 with
                        | none => .error (.parseError "vol conversion failed")
                        | some s5 =>
                          match env.parseFloat s5 with
                          | .error e => .error e
                          | .ok v =>
                            .ok { time := t, openP := o, highP := h,
                                  lowP := lo, closeP := cl, volume := v }

/-- The candle loop of `GetHistoricCandles`: rows are parsed in order and the
first failing row aborts with its error. -/
def processRows (env : Env) : List (List JVal) → Except GctError (List Candle)
  | [] => .ok []
  | r :: rest =>
    match processRow env r with
    | .error e => .error e
    | .ok cdl =>
      match processRows env rest with
      | .error e => .error e
      | .ok cs => .ok (cdl :: cs)

/-- Ascending-timestamp order on candles. -/
def candleLE (a b : Candle) : Prop := a.time ≤ b.time

instance : DecidableRel candleLE := fun a b =>
  inferInstanceAs (Decidable (a.time ≤ b.time))

instance : IsTotal Candle candleLE :=
  ⟨fun a b => Int.le_total a.time b.time⟩

instance : IsTrans Candle candleLE :=
  ⟨fun _ _ _ hab hbc => le_trans hab hbc⟩

/-- Modelled from the spec: `kline.Item.SortCandlesByTimestamp` is not part of
the embedded sources; with `desc = false` it sorts candles ascending by
timestamp. -/
def SortCandlesByTimestamp (item : KlineItem) (desc : Bool) : KlineItem :=
  if desc then
    { item with candles := (List.insertionSort candleLE item.candles).reverse }
  else { item with candles := List.insertionSort candleLE item.candles }

/-- The kline REST fetch selected inside `GetHistoricCandles`: swap klines for
perpetual swaps, spot klines otherwise. -/
def klineFetch (env : Env) (a : AssetItem) (symbol : String)
    (startT endT : Int) (ivl : String) : Except GctError (List (List JVal)) :=
  if a = .perpetualSwap then env.getSwapKlines symbol startT endT ivl
  else env.getKlines symbol startT endT ivl

/-- The REST trace of the kline fetch of `GetHistoricCandles`. -/
def klineFetchCalls (a : AssetItem) (symbol : String) : List RestCall :=
  if a = .perpetualSwap then [.getSwapKlinesCall symbol]
  else [.getKlinesCall symbol]

/-- `GetHistoricCandles`: validates, formats (always with the perpetual-swap
format), fetches the rows, parses each row and returns the candles sorted
ascending; every error path returns the zero `kline.Item`. -/
def GetHistoricCandles (env : Env) (c : Coinbene) (p : Pair) (a : AssetItem)
    (startT endT : Int) (interval : KlineInterval) :
    KlineItem × Option GctError × List RestCall :=
  match env.validateKline p a interval with
  | some e => (emptyKlineItem, some e, [])
  | none =>
    match env.formatExchangeCurrency p .perpetualSwap with
    | .error e => (emptyKlineItem, some e, [])
    | .ok fp =>
      match klineFetch env a fp.str startT endT
          (FormatExchangeKlineInterval interval) with
      | .error e => (emptyKlineItem, some e, klineFetchCalls a fp.str)
      | .ok rows =>
        match processRows env rows with
        | .error e => (emptyKlineItem, some e, klineFetchCalls a fp.str)
        | .ok candles =>
          (SortCandlesByTimestamp
            { exchange := c.name, pair := p, interval := interval, asset := a,
              candles := candles } false,
            none, klineFetchCalls a fp.str)

/-!
## The order book synchronizer (modelled from the spec)

Modelled from the spec: the Orderbook Synchronizer state machine of §4.4 is
not part of the embedded sources.  Per the spec, in the `Synced` state an
update with sequence `current+1` applies directly (upsert the level, a level
with amount 0 is absent), an update with a larger sequence is buffered until
its gap is filled (buffered updates are kept sorted ascending by sequence),
and an update with sequence ≤ current is discarded as stale.  The buffer is
unbounded here, which models deliveries that stay within the buffer window
(no overflow, hence no resync).
-/

/-- A sequence-numbered diff: side, price level and new amount (amount 0
deletes the level). -/
structure BookUpdate where
  seq : Nat
  isBid : Bool
  price : Rat
  amount : Rat
deriving DecidableEq, Repr

/-- A book as a level table: side and price to amount; amount 0 means the
level is absent. -/
def SyncBook := Bool → Rat → Rat

/-- Applying one diff to a book: upsert the level (amount 0 deletes it). -/
def applyUpdate (b : SyncBook) (u : BookUpdate) : SyncBook :=
  fun side price =>
    if side = u.isBid ∧ price = u.price then u.amount else b side price

/-- A per-key synchronizer state in `Synced`: the last applied sequence, the
book, and the pending buffer (kept sorted ascending by sequence). -/
structure SyncState where
  seq : Nat
  book : SyncBook
  buf : List BookUpdate

/-- Insertion into the pending buffer, ordered by sequence. -/
def insertBySeq (u : BookUpdate) : List BookUpdate → List BookUpdate
  | [] => [u]
  | v :: t => if u.seq ≤ v.seq then u :: v :: t else v :: insertBySeq u t

/-- Replay of the pending buffer after an apply: stale entries are discarded,
consecutive entries apply, and the replay stops at the first remaining gap. -/
def drain (seqv : Nat) (b : SyncBook) : List BookUpdate → SyncState
  | [] => ⟨seqv, b, []⟩
  | h :: t =>
    if h.seq ≤ seqv then drain seqv b t
    else if h.seq = seqv + 1 then drain (seqv + 1) (applyUpdate b h) t
    else ⟨seqv, b, h :: t⟩

/-- Delivery of one update to a synced state: discard stale, apply the next
sequence (then replay the buffer), buffer a gapped one. -/
def deliver (s : SyncState) (u : BookUpdate) : SyncState :=
  if u.seq ≤ s.seq then s
  else if u.seq = s.seq + 1 then drain (s.seq + 1) (applyUpdate s.book u) s.buf
  else ⟨s.seq, s.book, insertBySeq u s.buf⟩

/-- Delivery of a whole list of updates, in list order. -/
def deliverList (s : SyncState) (l : List BookUpdate) : SyncState :=
  l.foldl deliver s

/-- The sequence numbers currently buffered. -/
def bufSeqs (s : SyncState) : List Nat := s.buf.map BookUpdate.seq

/-- Sorting a list of updates ascending by sequence. -/
def sortBySeq (l : List BookUpdate) : List BookUpdate :=
  l.foldr insertBySeq []


theorem drain_seq_le : ∀ (buf : List BookUpdate) (seqv : Nat) (b : SyncBook),
    seqv ≤ (drain seqv b buf).seq
  | [], _, _ => le_refl _
  | h :: t, seqv, b => by
    simp only [drain]
    by_cases h1 : h.seq ≤ seqv
    · simpa [h1] using drain_seq_le t seqv b
    · by_cases h2 : h.seq = seqv + 1
      · rw [if_neg h1, if_pos h2]
        exact le_trans (Nat.le_succ seqv) (drain_seq_le t (seqv + 1) _)
      · rw [if_neg h1, if_neg h2]

theorem drain_buf_seqs : ∀ (buf : List BookUpdate) (seqv : Nat) (b : SyncBook)
    (q : Nat), q ∈ (drain seqv b buf).buf.map BookUpdate.seq →
    q ∈ buf.map BookUpdate.seq
  | [], _, _, _, hq => hq
  | h :: t, seqv, b, q, hq => by
    simp only [drain] at hq
    by_cases h1 : h.seq ≤ seqv
    · rw [if_pos h1] at hq
      simp only [List.map_cons, List.mem_cons]
      exact Or.inr (drain_buf_seqs t seqv b q hq)
    · rw [if_neg h1] at hq
      by_cases h2 : h.seq = seqv + 1
      · rw [if_pos h2] at hq
        simp only [List.map_cons, List.mem_cons]
        exact Or.inr (drain_buf_seqs t (seqv + 1) (applyUpdate b h) q hq)
      · rw [if_neg h2] at hq
        exact hq

theorem insertBySeq_seqs (u : BookUpdate) : ∀ (l : List BookUpdate) (q : Nat),
    q ∈ (insertBySeq u l).map BookUpdate.seq →
    q = u.seq ∨ q ∈ l.map BookUpdate.seq
  | [], q, hq => by simpa [insertBySeq] using hq
  | v :: t, q, hq => by
    simp only [insertBySeq] at hq
    by_cases h1 : u.seq ≤ v.seq
    · rw [if_pos h1] at hq
      simpa using hq
    · rw [if_neg h1] at hq
      simp only [List.map_cons, List.mem_cons] at hq ⊢
      rcases hq with hq | hq
      · exact Or.inr (Or.inl hq)
      · rcases insertBySeq_seqs u t q hq with h | h
        · exact Or.inl h
        · exact Or.inr (Or.inr h)

theorem deliver_stale {s : SyncState} {u : BookUpdate} (h : u.seq ≤ s.seq) :
    deliver s u = s := by
  simp [deliver, h]

theorem deliver_seq_le (s : SyncState) (u : BookUpdate) :
    s.seq ≤ (deliver s u).seq := by
  simp only [deliver]
  by_cases h1 : u.seq ≤ s.seq
  · simp [h1]
  · by_cases h2 : u.seq = s.seq + 1
    · rw [if_neg h1, if_pos h2]
      exact le_trans (Nat.le_succ _) (drain_seq_le s.buf (s.seq + 1) _)
    · rw [if_neg h1, if_neg h2]

theorem deliver_buf_seqs (s : SyncState) (u : BookUpdate) (q : Nat)
    (hq : q ∈ bufSeqs (deliver s u)) : q = u.seq ∨ q ∈ bufSeqs s := by
  simp only [bufSeqs, deliver] at hq ⊢
  by_cases h1 : u.seq ≤ s.seq
  · rw [if_pos h1] at hq
    exact Or.inr hq
  · rw [if_neg h1] at hq
    by_cases h2 : u.seq = s.seq + 1
    · rw [if_pos h2] at hq
      exact Or.inr (drain_buf_seqs s.buf (s.seq + 1) (applyUpdate s.book u) q hq)
    · rw [if_neg h2] at hq
      exact insertBySeq_seqs u s.buf q hq

theorem drain_insert : ∀ (buf : List BookUpdate) (seqv : Nat) (b : SyncBook)
    (v : BookUpdate), seqv < v.seq → v.seq ∉ buf.map BookUpdate.seq →
    deliver (drain seqv b buf) v = drain seqv b (insertBySeq v buf)
  | [], seqv, b, v, hgt, _ => by
    have hns : ¬ v.seq ≤ seqv := Nat.not_le.mpr hgt
    by_cases hv : v.seq = seqv + 1
    · simp [drain, deliver, insertBySeq, hns, hv]
    · simp [drain, deliver, insertBySeq, hns, hv]
  | h :: t, seqv, b, v, hgt, hnin => by
    have hvh : v.seq ≠ h.seq := by
      intro hc
      exact hnin (by simp [hc])
    have hvt : v.seq ∉ t.map BookUpdate.seq := by
      intro hc
      exact hnin (by simp [hc])
    have hns : ¬ v.seq ≤ seqv := Nat.not_le.mpr hgt
    by_cases hle : v.seq ≤ h.seq
    · have hlt : v.seq < h.seq := lt_of_le_of_ne hle hvh
      have hh1 : ¬ h.seq ≤ seqv := by omega
      have f0 : seqv + 1 ≤ h.seq := by omega
      by_cases hv1 : v.seq = seqv + 1
      · have hh2 : h.seq ≠ seqv + 1 := by omega
        simp [drain, deliver, insertBySeq, hns, hv1, hh1, hh2, hle, f0]
      · have hh2 : h.seq ≠ seqv + 1 := by omega
        simp [drain, deliver, insertBySeq, hns, hv1, hh1, hh2, hle, f0]
    · have hgt2 : h.seq < v.seq := Nat.not_le.mp hle
      have e1 : insertBySeq v (h :: t) = h :: insertBySeq v t := by
        simp only [insertBySeq]
        rw [if_neg hle]
      rw [e1]
      by_cases hs : h.seq ≤ seqv
      · have e2 : drain seqv b (h :: t) = drain seqv b t := by
          simp only [drain]
          rw [if_pos hs]
        have e3 : drain seqv b (h :: insertBySeq v t) =
            drain seqv b (insertBySeq v t) := by
          simp only [drain]
          rw [if_pos hs]
        rw [e2, e3]
        exact drain_insert t seqv b v hgt hvt
      · by_cases hn : h.seq = seqv + 1
        · have e2 : drain seqv b (h :: t) =
              drain (seqv + 1) (applyUpdate b h) t := by
            simp only [drain]
            rw [if_neg hs, if_pos hn]
          have e3 : drain seqv b (h :: insertBySeq v t) =
              drain (seqv + 1) (applyUpdate b h) (insertBySeq v t) := by
            simp only [drain]
            rw [if_neg hs, if_pos hn]
          rw [e2, e3]
          exact drain_insert t (seqv + 1) (applyUpdate b h) v (by omega) hvt
        · have hv2 : v.seq ≠ seqv + 1 := by omega
          simp [drain, deliver, insertBySeq, hns, hv2, hs, hn, hle]

theorem deliver_comm_stale {s : SyncState} {u : BookUpdate}
    (h : u.seq ≤ s.seq) (v : BookUpdate) :
    deliver (deliver s u) v = deliver (deliver s v) u := by
  rw [deliver_stale h, deliver_stale (le_trans h (deliver_seq_le s v))]

theorem insertBySeq_comm {u v : BookUpdate} (huv : u.seq ≠ v.seq) :
    ∀ l : List BookUpdate,
    insertBySeq v (insertBySeq u l) = insertBySeq u (insertBySeq v l)
  | [] => by
    rcases Nat.lt_or_ge u.seq v.seq with h | h
    · have h1 : ¬ v.seq ≤ u.seq := by omega
      have h2 : u.seq ≤ v.seq := le_of_lt h
      simp [insertBySeq, h1, h2]
    · have h3 : v.seq < u.seq := lt_of_le_of_ne h (fun hc => huv hc.symm)
      have h1 : v.seq ≤ u.seq := le_of_lt h3
      have h2 : ¬ u.seq ≤ v.seq := by omega
      simp [insertBySeq, h1, h2]
  | w :: t => by
    by_cases hu : u.seq ≤ w.seq
    · by_cases hv : v.seq ≤ w.seq
      · rcases Nat.lt_or_ge u.seq v.seq with h | h
        · have h1 : ¬ v.seq ≤ u.seq := by omega
          have h2 : u.seq ≤ v.seq := le_of_lt h
          simp [insertBySeq, hu, hv, h1, h2]
        · have h3 : v.seq < u.seq := lt_of_le_of_ne h (fun hc => huv hc.symm)
          have h1 : v.seq ≤ u.seq := le_of_lt h3
          have h2 : ¬ u.seq ≤ v.seq := by omega
          simp [insertBySeq, hu, hv, h1, h2]
      · have h1 : ¬ v.seq ≤ u.seq := by omega
        simp [insertBySeq, hu, hv, h1]
    · by_cases hv : v.seq ≤ w.seq
      · have h2 : ¬ u.seq ≤ v.seq := by omega
        simp [insertBySeq, hu, hv, h2]
      · have e1 : insertBySeq u (w :: t) = w :: insertBySeq u t := by
          simp only [insertBySeq]
          rw [if_neg hu]
        have e2 : insertBySeq v (w :: t) = w :: insertBySeq v t := by
          simp only [insertBySeq]
          rw [if_neg hv]
        rw [e1, e2]
        have e3 : insertBySeq v (w :: insertBySeq u t) =
            w :: insertBySeq v (insertBySeq u t) := by
          simp only [insertBySeq]
          rw [if_neg hv]
        have e4 : insertBySeq u (w :: insertBySeq v t) =
            w :: insertBySeq u (insertBySeq v t) := by
          simp only [insertBySeq]
          rw [if_neg hu]
        rw [e3, e4, insertBySeq_comm huv t]

theorem deliver_comm_next_gap {s : SyncState} {u v : BookUpdate}
    (hu : u.seq = s.seq + 1) (hv : s.seq + 1 < v.seq)
    (hvb : v.seq ∉ bufSeqs s) :
    deliver (deliver s u) v = deliver (deliver s v) u := by
  have h1 : ¬ u.seq ≤ s.seq := by omega
  have h3 : ¬ v.seq ≤ s.seq := by omega
  have h4 : v.seq ≠ s.seq + 1 := by omega
  have hvb2 : v.seq ∉ s.buf.map BookUpdate.seq := hvb
  have e1 : deliver s u = drain (s.seq + 1) (applyUpdate s.book u) s.buf := by
    simp only [deliver]
    rw [if_neg h1, if_pos hu]
  have e2 : deliver s v = ⟨s.seq, s.book, insertBySeq v s.buf⟩ := by
    simp only [deliver]
    rw [if_neg h3, if_neg h4]
  rw [e1, e2, drain_insert s.buf (s.seq + 1) (applyUpdate s.book u) v hv hvb2]
  simp [deliver, h1, hu]

theorem deliver_comm {s : SyncState} {u v : BookUpdate} (hne : u.seq ≠ v.seq)
    (hub : u.seq ∉ bufSeqs s) (hvb : v.seq ∉ bufSeqs s) :
    deliver (deliver s u) v = deliver (deliver s v) u := by
  rcases le_or_lt u.seq s.seq with h | h
  · exact deliver_comm_stale h v
  rcases le_or_lt v.seq s.seq with h2 | h2
  · exact (deliver_comm_stale h2 u).symm
  rcases lt_or_ge (s.seq + 1) u.seq with hug | hug
  · rcases lt_or_ge (s.seq + 1) v.seq with hvg | hvg
    · have hu1 : ¬ u.seq ≤ s.seq := by omega
      have hu2 : u.seq ≠ s.seq + 1 := by omega
      have hv1 : ¬ v.seq ≤ s.seq := by omega
      have hv2 : v.seq ≠ s.seq + 1 := by omega
      simp only [deliver, if_neg hu1, if_neg hu2, if_neg hv1, if_neg hv2]
      rw [insertBySeq_comm hne s.buf]
    · have hveq : v.seq = s.seq + 1 := by omega
      exact (deliver_comm_next_gap hveq (by omega) hub).symm
  · have hueq : u.seq = s.seq + 1 := by omega
    have hvgap : s.seq + 1 < v.seq := by omega
    exact deliver_comm_next_gap hueq hvgap hvb

theorem deliverList_perm {l₁ l₂ : List BookUpdate} (hp : l₁.Perm l₂) :
    ∀ s : SyncState, (l₁.map BookUpdate.seq).Nodup →
    (∀ q ∈ l₁.map BookUpdate.seq, q ∉ bufSeqs s) →
    deliverList s l₁ = deliverList s l₂ := by
  induction hp with
  | nil =>
    intro s _ _
    rfl
  | cons x hp ih =>
    intro s hnd hdisj
    simp only [List.map_cons, List.nodup_cons] at hnd
    show deliverList (deliver s x) _ = deliverList (deliver s x) _
    apply ih (deliver s x) hnd.2
    intro q hq hqbuf
    rcases deliver_buf_seqs s x q hqbuf with hqx | hqs
    · exact hnd.1 (hqx ▸ hq)
    · exact hdisj q (List.mem_cons_of_mem x.seq hq) hqs
  | swap x y l =>
    intro s hnd hdisj
    simp only [List.map_cons, List.nodup_cons, List.mem_cons, not_or] at hnd
    have hyx : y.seq ≠ x.seq := hnd.1.1
    have hyb : y.seq ∉ bufSeqs s := hdisj y.seq (by simp)
    have hxb : x.seq ∉ bufSeqs s := hdisj x.seq (by simp)
    show deliverList (deliver (deliver s y) x) l =
      deliverList (deliver (deliver s x) y) l
    rw [deliver_comm hyx hyb hxb]
  | trans hp1 hp2 ih1 ih2 =>
    intro s hnd hdisj
    rw [ih1 s hnd hdisj]
    apply ih2 s (((hp1.map BookUpdate.seq).nodup_iff).mp hnd)
    intro q hq
    exact hdisj q (((hp1.map BookUpdate.seq).mem_iff).mpr hq)

theorem insertBySeq_perm (u : BookUpdate) : ∀ l : List BookUpdate,
    (insertBySeq u l).Perm (u :: l)
  | [] => List.Perm.refl _
  | v :: t => by
    by_cases h : u.seq ≤ v.seq
    · simp only [insertBySeq]
      rw [if_pos h]
    · simp only [insertBySeq]
      rw [if_neg h]
      exact (List.Perm.cons v (insertBySeq_perm u t)).trans
        (List.Perm.swap u v t)

theorem sortBySeq_perm : ∀ l : List BookUpdate, (sortBySeq l).Perm l
  | [] => List.Perm.refl _
  | x :: t =>
    (insertBySeq_perm x (sortBySeq t)).trans
      (List.Perm.cons x (sortBySeq_perm t))

/-!
## Shared helper lemmas and concrete fixtures
-/

instance {ε α : Type} [DecidableEq ε] [DecidableEq α] :
    DecidableEq (Except ε α) := fun x y =>
  match x, y with
  | .error e, .error f => decidable_of_iff (e = f) (by simp)
  | .error _, .ok _ => isFalse (by simp)
  | .ok _, .error _ => isFalse (by simp)
  | .ok a, .ok b => decidable_of_iff (a = b) (by simp)

theorem process_ok {b b2 : OrderbookBase} (h : b.process = .ok b2) :
    b2 = b ∧ (b.verifyOrderbook = true → crossedCheck b = false) := by
  unfold OrderbookBase.process at h
  by_cases hv : b.verifyOrderbook = true
  · rw [if_pos hv] at h
    by_cases hneg : ((b.bids.any fun x => decide (x.amount < 0)) ||
        (b.asks.any fun x => decide (x.amount < 0))) = true
    · rw [if_pos hneg] at h
      cases h
    · rw [if_neg hneg] at h
      by_cases hc : crossedCheck b = true
      · rw [if_pos hc] at h
        cases h
      · rw [if_neg hc] at h
        cases h
        exact ⟨rfl, fun _ => by simpa using hc⟩
  · rw [if_neg hv] at h
    cases h
    exact ⟨rfl, fun hvv => absurd hvv hv⟩

theorem crossedCheck_false {b : OrderbookBase} (h : crossedCheck b = false) :
    ∀ bb ba : Rat, bestBid b = some bb → bestAsk b = some ba → bb < ba := by
  intro bb ba hbb hba
  unfold crossedCheck at h
  rw [hbb, hba] at h
  have h2 : ¬ ba ≤ bb := by simpa using h
  exact lt_of_not_le h2

theorem UpdateOrderbook_ok_shape (env : Env) (c : Coinbene) (p : Pair)
    (a : AssetItem) (b : OrderbookBase)
    (hok : (UpdateOrderbook env c p a).1 = .ok b) :
    b.verifyOrderbook = c.canVerifyOrderbook ∧
    (c.canVerifyOrderbook = true → crossedCheck b = false) := by
  simp only [UpdateOrderbook] at hok
  split at hok
  · simp at hok
  · split at hok
    · simp at hok
    · split at hok
      · simp at hok
      · split at hok
        · simp at hok
        · rename_i published hproc
          simp only [] at hok
          have hpb : published = b := by
            simpa using hok
          subst hpb
          rcases process_ok hproc with ⟨heq, hcross⟩
          subst heq
          constructor
          · simp [newOrderBook]
          · intro hv
            apply hcross
            simp [newOrderBook, hv]

/-- A blank exchange object (zero value before `SetDefaults`). -/
def cZero : Coinbene :=
  { name := "", enabled := false, verbose := false, canVerifyOrderbook := false,
    websocketResponseCheckTimeout := 0, websocketResponseMaxLimit := 0,
    websocketOrderbookBufferLimit := 0, supportedAssets := [] }

/-- The exchange object as configured by `SetDefaults`. -/
def cB : Coinbene := SetDefaults cZero

/-- A concrete pair used by the witnesses. -/
def pairBTC : Pair := { base := "BTC", quote := "USDT" }

/-- A benign environment: every oracle succeeds with an empty or trivial
answer; witnesses override single fields. -/
def defaultEnv : Env :=
  { formatExchangeCurrency := fun p _ => .ok p
    getEnabledPairs := fun _ => .ok []
    getAllPairs := .ok []
    getSwapInstruments := .ok []
    getPairFormat := fun _ _ => .ok { delimiter := "-", uppercase := true }
    getOrderbook := fun _ _ => .ok { bids := [], asks := [] }
    getSwapOrderbook := fun _ _ => .ok { bids := [], asks := [] }
    getTickers := .ok []
    getSwapTickers := .ok fun _ => none
    parsePair := fun _ => .error (.parseError "pair")
    processTicker := fun _ => none
    getTrades := fun _ _ => .ok []
    addTradesToBuffer := fun _ => none
    validateSubmit := fun _ => none
    placeSpotOrder := fun _ _ _ _ _ _ _ => .error (.restError 0)
    validateCancel := fun _ => none
    fetchOpenSpotOrders := fun _ => .ok []
    cancelSpotOrder := fun _ => .ok ()
    obGet := fun _ _ _ => .error (.storeError 1)
    validateKline := fun _ _ _ => none
    getKlines := fun _ _ _ _ => .ok []
    getSwapKlines := fun _ _ _ _ => .ok []
    parseRFC3339 := fun _ => .error (.parseError "time")
    parseFloat := fun _ => .error (.parseError "float")
    setupDefaults := fun _ => none
    getWebsocketURL := .ok "wss"
    websocketSetup := fun _ => none
    setupNewConnection := fun _ => none }

/-!
## C1
-/

/-- C1: whenever crossed-book verification is enabled (`CanVerifyOrderbook`),
`UpdateOrderbook` constructs every book with `VerifyOrderbook` set and
publishes only via `book.Process()`, so a book it returns successfully is
never crossed: its best bid is strictly below its best ask. -/
theorem updateOrderbook_never_crossed (env : Env) (c : Coinbene) (p : Pair)
    (a : AssetItem) (b : OrderbookBase) (hv : c.canVerifyOrderbook = true)
    (hok : (UpdateOrderbook env c p a).1 = .ok b) :
    ∀ bb ba : Rat, bestBid b = some bb → bestAsk b = some ba → bb < ba := by
  rcases UpdateOrderbook_ok_shape env c p a b hok with ⟨_, hcross⟩
  exact crossedCheck_false (hcross hv)

/-- Environment for the C1 witness: the exchange answers with an uncrossed
one-level book. -/
def env1 : Env :=
  { defaultEnv with
    getOrderbook := fun _ _ =>
      .ok { bids := [{ price := 100, amount := 1, count := 0 }],
            asks := [{ price := 101, amount := 1, count := 0 }] } }

/-- Exchange object with verification enabled, for the C1 witness. -/
def c1 : Coinbene := { cB with canVerifyOrderbook := true }

/-- The book published in the C1 witness scenario. -/
def pub1 : OrderbookBase :=
  { exchange := "Coinbene", pair := pairBTC, asset := .spot,
    verifyOrderbook := true,
    bids := [{ price := 100, amount := 1, orderCount := 0 }],
    asks := [{ price := 101, amount := 1, orderCount := 0 }] }

theorem updateOrderbook_never_crossed_witness :
    c1.canVerifyOrderbook = true ∧
    (UpdateOrderbook env1 c1 pairBTC .spot).1 = .ok pub1 ∧
    bestBid pub1 = some 100 ∧ bestAsk pub1 = some 101 ∧ (100 : Rat) < 101 :=
  ⟨rfl, by decide, by decide, by decide,
    updateOrderbook_never_crossed env1 c1 pairBTC .spot pub1 rfl (by decide)
      100 101 (by decide) (by decide)⟩

/-!
## C2
-/

/-- C2: for every set of distinct sequence-numbered updates delivered within
the buffer window (the model buffer is unbounded, so no delivery overflows
it), and for any permutation `ld` of their delivery order, the synchronizer
converges to the same final state — hence the same final book — as applying
the updates in strict ascending sequence order (`sortBySeq`). -/
theorem synchronizer_confluence (seq0 : Nat) (b0 : SyncBook)
    (l ld : List BookUpdate) (hperm : ld.Perm l)
    (hnodup : (l.map BookUpdate.seq).Nodup) :
    deliverList ⟨seq0, b0, []⟩ ld = deliverList ⟨seq0, b0, []⟩ (sortBySeq l) := by
  apply deliverList_perm (hperm.trans (sortBySeq_perm l).symm)
  · exact ((hperm.map BookUpdate.seq).nodup_iff).mpr hnodup
  · intro q _
    simp [bufSeqs]

/-- Update 101 of the C2 witness. -/
def wU1 : BookUpdate := { seq := 101, isBid := true, price := 100, amount := 1 }

/-- Update 102 of the C2 witness. -/
def wU2 : BookUpdate := { seq := 102, isBid := false, price := 101, amount := 2 }

theorem synchronizer_confluence_witness :
    ([wU2, wU1].Perm [wU1, wU2]) ∧
    (([wU1, wU2].map BookUpdate.seq).Nodup) ∧
    deliverList ⟨100, fun _ _ => 0, []⟩ [wU2, wU1] =
      deliverList ⟨100, fun _ _ => 0, []⟩ (sortBySeq [wU1, wU2]) :=
  ⟨List.Perm.swap wU1 wU2 [], by decide,
    synchronizer_confluence 100 (fun _ _ => 0) [wU1, wU2] [wU2, wU1]
      (List.Perm.swap wU1 wU2 []) (by decide)⟩

/-!
## C3
-/

/-- C3: when the underlying REST call fails, `UpdateOrderbook` (spot and
perpetual swap), `UpdateTickers` (both branches) and `GetRecentTrades`
return that REST error unchanged and issue exactly one REST request —
they never retry it. -/
theorem rest_error_propagation :
    (∀ (env : Env) (c : Coinbene) (p fpair : Pair) (a : AssetItem)
        (e : GctError),
      SupportsAsset c a = true →
      env.formatExchangeCurrency p a = .ok fpair →
      obFetch env a fpair.str 100 = .error e →
      UpdateOrderbook env c p a = (.error e, obFetchCalls a fpair.str 100)) ∧
    (∀ (env : Env) (c : Coinbene) (ps : List Pair) (e : GctError),
      SupportsAsset c .spot = true →
      env.getEnabledPairs .spot = .ok ps →
      env.getTickers = .error e →
      UpdateTickers env c .spot = (some e, [.getTickersCall])) ∧
    (∀ (env : Env) (c : Coinbene) (ps : List Pair) (e : GctError),
      SupportsAsset c .perpetualSwap = true →
      env.getEnabledPairs .perpetualSwap = .ok ps →
      env.getSwapTickers = .error e →
      UpdateTickers env c .perpetualSwap = (some e, [.getSwapTickersCall])) ∧
    (∀ (env : Env) (c : Coinbene) (p fpair : Pair) (a : AssetItem)
        (e : GctError),
      env.formatExchangeCurrency p a = .ok fpair →
      env.getTrades fpair.str 100 = .error e →
      GetRecentTrades env c p a = (.error e, [.getTradesCall fpair.str 100])) := by
  refine ⟨?_, ?_, ?_, ?_⟩
  · intro env c p fpair a e hs hf hb
    simp [UpdateOrderbook, hs, hf, hb]
  · intro env c ps e hs hp ht
    simp [UpdateTickers, hs, hp, ht]
  · intro env c ps e hs hp ht
    simp [UpdateTickers, hs, hp, ht]
  · intro env c p fpair a e hf ht
    simp [GetRecentTrades, hf, ht]

/-- Environment for the C3 witness: the spot order book endpoint fails. -/
def env3 : Env :=
  { defaultEnv with getOrderbook := fun _ _ => .error (.restError 7) }

theorem rest_error_propagation_witness :
    UpdateOrderbook env3 cB pairBTC .spot =
      (.error (.restError 7), [.getOrderbookCall "BTC/USDT" 100]) :=
  rest_error_propagation.1 env3 cB pairBTC pairBTC .spot (.restError 7)
    (by decide) rfl rfl

/-!
## C4
-/

/-- C4: for every asset type the exchange does not support, each of
`FetchTradablePairs`, `UpdateTickers`, `FetchOrderbook` and
`UpdateOrderbook` fails with an error naming the unsupported asset type
and issues no exchange request. -/
theorem unsupported_asset_rejection (env : Env) (c : Coinbene) (p : Pair)
    (a : AssetItem) (h : SupportsAsset c a = false) :
    FetchTradablePairs env c a = (.error (.unsupportedAsset c.name a), []) ∧
    UpdateTickers env c a = (some (.unsupportedAsset c.name a), []) ∧
    FetchOrderbook env c p a = (.error (.unsupportedAsset c.name a), []) ∧
    UpdateOrderbook env c p a = (.error (.unsupportedAsset c.name a), []) := by
  refine ⟨?_, ?_, ?_, ?_⟩
  · simp [FetchTradablePairs, h]
  · simp [UpdateTickers, h]
  · simp [FetchOrderbook, h]
  · simp [UpdateOrderbook, h]

theorem unsupported_asset_rejection_witness :
    FetchTradablePairs defaultEnv cB .margin =
      (.error (.unsupportedAsset "Coinbene" .margin), []) ∧
    UpdateTickers defaultEnv cB .margin =
      (some (.unsupportedAsset "Coinbene" .margin), []) ∧
    FetchOrderbook defaultEnv cB pairBTC .margin =
      (.error (.unsupportedAsset "Coinbene" .margin), []) ∧
    UpdateOrderbook defaultEnv cB pairBTC .margin =
      (.error (.unsupportedAsset "Coinbene" .margin), []) :=
  unsupported_asset_rejection defaultEnv cB pairBTC .margin (by decide)

/-!
## C5
-/

/-- The depths of the order book snapshot requests in a REST trace. -/
def requestedDepths (tr : List RestCall) : List Nat :=
  tr.filterMap fun call =>
    match call with
    | .getOrderbookCall _ d => some d
    | .getSwapOrderbookCall _ d => some d
    | _ => none

/-- The C5 claim as stated: the snapshot depth is chosen by the caller or
configuration, i.e. for any depth there are inputs making `UpdateOrderbook`
request the snapshot at that depth. -/
def updateOrderbookDepthIsChosen : Prop :=
  ∀ d : Nat, ∃ (env : Env) (c : Coinbene) (p : Pair) (a : AssetItem),
    requestedDepths (UpdateOrderbook env c p a).2 = [d]

theorem requestedDepths_obFetchCalls (a : AssetItem) (s : String) :
    ∀ d ∈ requestedDepths (obFetchCalls a s 100), d = 100 := by
  cases a <;> simp [obFetchCalls, requestedDepths]

theorem updateOrderbook_trace_shape (env : Env) (c : Coinbene) (p : Pair)
    (a : AssetItem) : (UpdateOrderbook env c p a).2 = [] ∨
    ∃ s, (UpdateOrderbook env c p a).2 = obFetchCalls a s 100 := by
  simp only [UpdateOrderbook]
  split
  · exact Or.inl rfl
  · split
    · exact Or.inl rfl
    · rename_i fpair _
      split
      · exact Or.inr ⟨fpair.str, rfl⟩
      · split
        · exact Or.inr ⟨fpair.str, rfl⟩
        · exact Or.inr ⟨fpair.str, rfl⟩

theorem depths_requested_all_100 (env : Env) (c : Coinbene) (p : Pair)
    (a : AssetItem) (d : Nat)
    (hd : d ∈ requestedDepths (UpdateOrderbook env c p a).2) : d = 100 := by
  rcases updateOrderbook_trace_shape env c p a with h | ⟨s, h⟩
  · rw [h] at hd
    simp [requestedDepths] at hd
  · rw [h] at hd
    exact requestedDepths_obFetchCalls a s d hd

/-- C5 counterexample: the claim that `UpdateOrderbook` requests the snapshot
at a caller- or configuration-chosen depth is false — no input makes it
request depth 37, because every snapshot request it issues uses the
hard-coded depth 100. -/
theorem updateOrderbook_depth_not_chosen : ¬ updateOrderbookDepthIsChosen := by
  intro hclaim
  rcases hclaim 37 with ⟨env, c, p, a, hd⟩
  have h37 : (37 : Nat) ∈ requestedDepths (UpdateOrderbook env c p a).2 := by
    rw [hd]
    simp
  have := depths_requested_all_100 env c p a 37 h37
  omega

/-- C5 amended: every order book snapshot request issued by `UpdateOrderbook`
(`GetOrderbook` for spot, `GetSwapOrderbook` for perpetual swap) uses the
fixed depth 100; the depth is not taken from the caller or the
configuration (the code carries a TO-DO for configurable depth). -/
theorem updateOrderbook_depth_fixed (env : Env) (c : Coinbene) (p : Pair)
    (a : AssetItem) (d : Nat)
    (hd : d ∈ requestedDepths (UpdateOrderbook env c p a).2) : d = 100 :=
  depths_requested_all_100 env c p a d hd

theorem updateOrderbook_depth_fixed_witness :
    (100 ∈ requestedDepths (UpdateOrderbook defaultEnv cB pairBTC .spot).2) ∧
    (100 : Nat) = 100 :=
  ⟨by decide,
    updateOrderbook_depth_fixed defaultEnv cB pairBTC .spot 100 (by decide)⟩

/-!
## C6
-/

/-- C6: every list of trades returned by `GetRecentTrades` is sorted
ascending by timestamp. -/
theorem recentTrades_sorted (env : Env) (c : Coinbene) (p : Pair)
    (a : AssetItem) (l : List TradeData)
    (hok : (GetRecentTrades env c p a).1 = .ok l) : l.Sorted tradeLE := by
  simp only [GetRecentTrades] at hok
  split at hok
  · simp at hok
  · split at hok
    · simp at hok
    · split at hok
      · simp at hok
      · simp only [] at hok
        injection hok with hok
        rw [← hok]
        simp only [sortTradesByDate]
        exact List.sorted_insertionSort tradeLE _

/-- Environment for the C6 witness: two trades arrive newest-first. -/
def env6 : Env :=
  { defaultEnv with
    getTrades := fun _ _ =>
      .ok [{ direction := "sell", price := 5, volume := 1, tradeTime := 200 },
           { direction := "buy", price := 6, volume := 2, tradeTime := 100 }] }

/-- The sorted trade list returned in the C6 witness scenario. -/
def wTrades : List TradeData :=
  [{ exchange := "Coinbene", currencyPair := pairBTC, assetType := .spot,
     side := .buy, price := 6, amount := 2, timestamp := 100 },
   { exchange := "Coinbene", currencyPair := pairBTC, assetType := .spot,
     side := .sell, price := 5, amount := 1, timestamp := 200 }]

theorem recentTrades_sorted_witness :
    ((GetRecentTrades env6 cB pairBTC .spot).1 = .ok wTrades) ∧
    wTrades.Sorted tradeLE :=
  ⟨by decide, recentTrades_sorted env6 cB pairBTC .spot wTrades (by decide)⟩

/-!
## C7
-/

/-- C7: the recognized configuration surface is honored: `SetDefaults`
installs the response-check timeout, the max outstanding unacked responses
limit and the order book buffer limit; `Setup` passes the sort-before-apply
toggle (`SortBuffer`) to the websocket; and `UpdateOrderbook` applies the
crossed-book verification toggle (`CanVerifyOrderbook`) to every book it
builds. -/
theorem config_surface_honored :
    (∀ c : Coinbene,
      (SetDefaults c).websocketResponseCheckTimeout =
        defaultWebsocketResponseCheckTimeout ∧
      (SetDefaults c).websocketResponseMaxLimit =
        defaultWebsocketResponseMaxLimit ∧
      (SetDefaults c).websocketOrderbookBufferLimit =
        defaultWebsocketOrderbookBufferLimit) ∧
    (∀ (env : Env) (exch : ExchConfig)
        (r : WebsocketSetupRec × ConnectionSetupRec),
      Setup env exch = .ok (some r) → r.1.sortBuffer = true) ∧
    (∀ (c : Coinbene) (p : Pair) (a : AssetItem),
      (newOrderBook c p a).verifyOrderbook = c.canVerifyOrderbook) ∧
    (∀ (env : Env) (c : Coinbene) (p : Pair) (a : AssetItem)
        (b : OrderbookBase), (UpdateOrderbook env c p a).1 = .ok b →
      b.verifyOrderbook = c.canVerifyOrderbook) := by
  refine ⟨?_, ?_, ?_, ?_⟩
  · intro c
    exact ⟨rfl, rfl, rfl⟩
  · intro env exch r h
    simp only [Setup] at h
    split at h
    · simp at h
    · split at h
      · simp at h
      · split at h
        · simp at h
        · split at h
          · simp at h
          · split at h
            · simp at h
            · injection h with h
              injection h with h
              rw [← h]
  · intro c p a
    rfl
  · intro env c p a b hok
    exact (UpdateOrderbook_ok_shape env c p a b hok).1

/-- The exchange configuration used by the C7 witness. -/
def exch7 : ExchConfig :=
  { enabled := true, websocketResponseCheckTimeout := 11,
    websocketResponseMaxLimit := 12 }

/-- The setup records produced in the C7 witness scenario. -/
def r7 : WebsocketSetupRec × ConnectionSetupRec :=
  ({ defaultURL := wsContractURL, runningURL := "wss", sortBuffer := true },
   { responseCheckTimeout := 11, responseMaxLimit := 12 })

theorem config_surface_honored_witness :
    Setup defaultEnv exch7 = .ok (some r7) ∧ r7.1.sortBuffer = true :=
  ⟨by decide, config_surface_honored.2.1 defaultEnv exch7 r7 (by decide)⟩

/-!
## C8
-/

/-- C8: `SubmitOrder` returns an error and places no order unless the
submission passes validation and its side is buy or sell; when the
exchange accepts the order, the returned response has `IsOrderPlaced` set
and carries the exchange-assigned order id. -/
theorem submitOrder_contract (env : Env) (c : Coinbene) (s : OrderSubmit) :
    ((env.validateSubmit s ≠ none ∨ (s.side ≠ .buy ∧ s.side ≠ .sell)) →
      (∃ e, (SubmitOrder env c s).1 = .error e) ∧
      (SubmitOrder env c s).2 = []) ∧
    (∀ r : SubmitResponse, (SubmitOrder env c s).1 = .ok r →
      r.isOrderPlaced = true ∧
      ∃ (fpair : Pair) (pr : PlaceOrderResp),
        env.formatExchangeCurrency s.pair .spot = .ok fpair ∧
        env.placeSpotOrder s.price s.amount fpair.str s.side.str s.otype
          s.clientID 0 = .ok pr ∧
        r.orderID = pr.orderID) := by
  constructor
  · intro hbad
    rcases hv : env.validateSubmit s with _ | e
    · rcases hbad with hval | ⟨hs1, hs2⟩
      · exact absurd hv hval
      · have hcond : s.side ≠ .buy ∧ s.side ≠ .sell := ⟨hs1, hs2⟩
        refine ⟨⟨.sideNotSupported s.side, ?_⟩, ?_⟩ <;>
          simp [SubmitOrder, hv, hcond]
    · refine ⟨⟨e, ?_⟩, ?_⟩ <;> simp [SubmitOrder, hv]
  · intro r hok
    simp only [SubmitOrder] at hok
    split at hok
    · simp at hok
    · split at hok
      · simp at hok
      · split at hok
        · simp at hok
        · rename_i fpair hfp
          split at hok
          · simp at hok
          · rename_i pr hpr
            simp only [] at hok
            injection hok with hok
            rw [← hok]
            exact ⟨rfl, fpair, pr, hfp, hpr, rfl⟩

/-- An order submission with an unsupported side, for the C8 witness. -/
def s8 : OrderSubmit :=
  { pair := pairBTC, side := .ask, price := 1, amount := 1,
    otype := "LIMIT", clientID := "c1" }

theorem submitOrder_contract_witness :
    (∃ e, (SubmitOrder defaultEnv cB s8).1 = .error e) ∧
    (SubmitOrder defaultEnv cB s8).2 = [] :=
  (submitOrder_contract defaultEnv cB s8).1 (Or.inr ⟨by decide, by decide⟩)

/-!
## C9
-/

/-- `true` exactly on `Except.ok` (generic form). -/
def isOkE {α : Type} : Except GctError α → Bool
  | .ok _ => true
  | .error _ => false

/-- The failure conditions of a candle row as the claim enumerates them:
fewer than 6 fields, a non-string among the first six fields, a failed
RFC3339 parse of field 0, or a failed float parse of one of fields 1-5. -/
def rowBad (env : Env) (row : List JVal) : Prop :=
  row.length < 6 ∨
  (∃ i, i < 6 ∧ strField row i = none) ∨
  (∃ s, strField row 0 = some s ∧ isOkE (env.parseRFC3339 s) = false) ∨
  (∃ i s, 1 ≤ i ∧ i < 6 ∧ strField row i = some s ∧
    isOkE (env.parseFloat s) = false)

theorem processRow_error_iff (env : Env) (row : List JVal) :
    (∃ e, processRow env row = .error e) ↔ rowBad env row := by
  by_cases hlen : row.length < 6
  · refine iff_of_true ⟨.parseError "unexpected candle data length", ?_⟩
      (Or.inl hlen)
    simp [processRow, hlen]
  · rcases h0 : strField row 0 with _ | s0
    · refine iff_of_true ⟨.parseError "timestamp conversion failed", ?_⟩
        (Or.inr (Or.inl ⟨0, by omega, h0⟩))
      simp [processRow, hlen, h0]
    · rcases hp0 : env.parseRFC3339 s0 with e0 | t
      · refine iff_of_true ⟨e0, ?_⟩
          (Or.inr (Or.inr (Or.inl ⟨s0, h0, by simp [hp0, isOkE]⟩)))
        simp [processRow, hlen, h0, hp0]
      · rcases h1 : strField row 1 with _ | s1
        · refine iff_of_true ⟨.parseError "open conversion failed", ?_⟩
            (Or.inr (Or.inl ⟨1, by omega, h1⟩))
          simp [processRow, hlen, h0, hp0, h1]
        · rcases hp1 : env.parseFloat s1 with e1 | v1
          · refine iff_of_true ⟨e1, ?_⟩ (Or.inr (Or.inr (Or.inr
              ⟨1, s1, by omega, by omega, h1, by simp [hp1, isOkE]⟩)))
            simp [processRow, hlen, h0, hp0, h1, hp1]
          · rcases h2 : strField row 2 with _ | s2
            · refine iff_of_true ⟨.parseError "high conversion failed", ?_⟩
                (Or.inr (Or.inl ⟨2, by omega, h2⟩))
              simp [processRow, hlen, h0, hp0, h1, hp1, h2]
            · rcases hp2 : env.parseFloat s2 with e2 | v2
              · refine iff_of_true ⟨e2, ?_⟩ (Or.inr (Or.inr (Or.inr
                  ⟨2, s2, by omega, by omega, h2, by simp [hp2, isOkE]⟩)))
                simp [processRow, hlen, h0, hp0, h1, hp1, h2, hp2]
              · rcases h3 : strField row 3 with _ | s3
                · refine iff_of_true
                    ⟨.parseError "low conversion failed", ?_⟩
                    (Or.inr (Or.inl ⟨3, by omega, h3⟩))
                  simp [processRow, hlen, h0, hp0, h1, hp1, h2, hp2, h3]
                · rcases hp3 : env.parseFloat s3 with e3 | v3
                  · refine iff_of_true ⟨e3, ?_⟩ (Or.inr (Or.inr (Or.inr
                      ⟨3, s3, by omega, by omega, h3, by simp [hp3, isOkE]⟩)))
                    simp [processRow, hlen, h0, hp0, h1, hp1, h2, hp2, h3,
                      hp3]
                  · rcases h4 : strField row 4 with _ | s4
                    · refine iff_of_true
                        ⟨.parseError "close conversion failed", ?_⟩
                        (Or.inr (Or.inl ⟨4, by omega, h4⟩))
                      simp [processRow, hlen, h0, hp0, h1, hp1, h2, hp2, h3,
                        hp3, h4]
                    · rcases hp4 : env.parseFloat s4 with e4 | v4
                      · refine iff_of_true ⟨e4, ?_⟩ (Or.inr (Or.inr (Or.inr
                          ⟨4, s4, by omega, by omega, h4,
                            by simp [hp4, isOkE]⟩)))
                        simp [processRow, hlen, h0, hp0, h1, hp1, h2, hp2,
                          h3, hp3, h4, hp4]
                      · rcases h5 : strField row 5 with _ | s5
                        · refine iff_of_true
                            ⟨.parseError "vol conversion failed", ?_⟩
                            (Or.inr (Or.inl ⟨5, by omega, h5⟩))
                          simp [processRow, hlen, h0, hp0, h1, hp1, h2, hp2,
                            h3, hp3, h4, hp4, h5]
                        · rcases hp5 : env.parseFloat s5 with e5 | v5
                          · refine iff_of_true ⟨e5, ?_⟩
                              (Or.inr (Or.inr (Or.inr
                                ⟨5, s5, by omega, by omega, h5,
                                  by simp [hp5, isOkE]⟩)))
                            simp [processRow, hlen, h0, hp0, h1, hp1, h2,
                              hp2, h3, hp3, h4, hp4, h5, hp5]
                          · refine iff_of_false ?_ ?_
                            · simp [processRow, hlen, h0, hp0, h1, hp1, h2,
                                hp2, h3, hp3, h4, hp4, h5, hp5]
                            · rintro (h | ⟨i, hi, hnone⟩ | ⟨s, hs, hbad⟩ |
                                ⟨i, s, hi1, hi6, hs, hbad⟩)
                              · exact hlen h
                              · interval_cases i <;> simp_all
                              · rw [h0] at hs
                                injection hs with hs
                                subst hs
                                rw [hp0] at hbad
                                simp [isOkE] at hbad
                              · interval_cases i
                                · rw [h1] at hs
                                  injection hs with hs
                                  subst hs
                                  rw [hp1] at hbad
                                  simp [isOkE] at hbad
                                · rw [h2] at hs
                                  injection hs with hs
                                  subst hs
                                  rw [hp2] at hbad
                                  simp [isOkE] at hbad
                                · rw [h3] at hs
                                  injection hs with hs
                                  subst hs
                                  rw [hp3] at hbad
                                  simp [isOkE] at hbad
                                · rw [h4] at hs
                                  injection hs with hs
                                  subst hs
                                  rw [hp4] at hbad
                                  simp [isOkE] at hbad
                                · rw [h5] at hs
                                  injection hs with hs
                                  subst hs
                                  rw [hp5] at hbad
                                  simp [isOkE] at hbad

theorem processRows_error_of_bad (env : Env) : ∀ rows : List (List JVal),
    (∃ r ∈ rows, rowBad env r) → ∃ e, processRows env rows = .error e
  | [], h => by simp at h
  | r :: rest, h => by
    rcases hr : processRow env r with e | cdl
    · exact ⟨e, by simp [processRows, hr]⟩
    · have hnr : ¬ rowBad env r := by
        intro hb
        rcases (processRow_error_iff env r).mpr hb with ⟨e, he⟩
        rw [hr] at he
        cases he
      rcases h with ⟨r2, hmem, hbad⟩
      rcases List.mem_cons.mp hmem with rfl | hmem2
      · exact absurd hbad hnr
      · rcases processRows_error_of_bad env rest ⟨r2, hmem2, hbad⟩ with ⟨e, he⟩
        exact ⟨e, by simp [processRows, hr, he]⟩

theorem processRows_ok_of_good (env : Env) : ∀ rows : List (List JVal),
    (∀ r ∈ rows, ¬ rowBad env r) → ∃ cs, processRows env rows = .ok cs
  | [], _ => ⟨[], rfl⟩
  | r :: rest, h => by
    rcases hr : processRow env r with e | cdl
    · have hb : rowBad env r := (processRow_error_iff env r).mp ⟨e, hr⟩
      exact absurd hb (h r (by simp))
    · rcases processRows_ok_of_good env rest
        (fun r2 hm => h r2 (by simp [hm])) with ⟨cs, hcs⟩
      exact ⟨cdl :: cs, by simp [processRows, hr, hcs]⟩

/-- C9: once `GetHistoricCandles` has obtained its candle rows, a row with
fewer than 6 fields, a non-string among the first six fields or a failed
time/float parse makes it return the zero `kline.Item` together with an
error; otherwise it returns no error and its candles sorted ascending by
timestamp. -/
theorem historicCandles_row_errors_and_sorted (env : Env) (c : Coinbene)
    (p fp : Pair) (a : AssetItem) (startT endT : Int) (iv : KlineInterval)
    (rows : List (List JVal))
    (hv : env.validateKline p a iv = none)
    (hf : env.formatExchangeCurrency p .perpetualSwap = .ok fp)
    (hr : klineFetch env a fp.str startT endT
      (FormatExchangeKlineInterval iv) = .ok rows) :
    ((∃ r ∈ rows, rowBad env r) →
      (GetHistoricCandles env c p a startT endT iv).1 = emptyKlineItem ∧
      ∃ e, (GetHistoricCandles env c p a startT endT iv).2.1 = some e) ∧
    ((∀ r ∈ rows, ¬ rowBad env r) →
      (GetHistoricCandles env c p a startT endT iv).2.1 = none ∧
      ((GetHistoricCandles env c p a startT endT iv).1.candles).Sorted
        candleLE) := by
  constructor
  · intro hbad
    rcases processRows_error_of_bad env rows hbad with ⟨e, he⟩
    constructor
    · simp [GetHistoricCandles, hv, hf, hr, he]
    · exact ⟨e, by simp [GetHistoricCandles, hv, hf, hr, he]⟩
  · intro hgood
    rcases processRows_ok_of_good env rows hgood with ⟨cs, hcs⟩
    constructor
    · simp [GetHistoricCandles, hv, hf, hr, hcs]
    · simp [GetHistoricCandles, hv, hf, hr, hcs, SortCandlesByTimestamp]
      exact List.sorted_insertionSort candleLE _

/-- Environment for the C9 witness: one malformed candle row. -/
def env9 : Env :=
  { defaultEnv with getKlines := fun _ _ _ _ => .ok [[JVal.nonstr]] }

theorem historicCandles_row_errors_and_sorted_witness :
    (GetHistoricCandles env9 cB pairBTC .spot 0 1 .oneDay).1 =
      emptyKlineItem ∧
    ∃ e, (GetHistoricCandles env9 cB pairBTC .spot 0 1 .oneDay).2.1 =
      some e :=
  (historicCandles_row_errors_and_sorted env9 cB pairBTC pairBTC .spot 0 1
    .oneDay [[JVal.nonstr]] rfl rfl rfl).1
    ⟨[JVal.nonstr], by decide, Or.inl (by decide)⟩

/-!
## C10
-/

theorem buildStatus_not_mem (env : Env) : ∀ (l : List OrderInfo)
    (m : String → Option String) (k : String),
    k ∉ l.map OrderInfo.orderID → buildStatus env l m k = m k
  | [], _, _, _ => rfl
  | o :: rest, m, k, hk => by
    have hk1 : k ≠ o.orderID := by
      intro hc
      exact hk (by simp [hc])
    have hk2 : k ∉ rest.map OrderInfo.orderID := by
      intro hc
      exact hk (by simp [hc])
    simp only [buildStatus]
    rw [buildStatus_not_mem env rest _ k hk2]
    simp [mapSet, hk1]

theorem buildStatus_mem (env : Env) : ∀ (l : List OrderInfo)
    (m : String → Option String) (k : String),
    k ∈ l.map OrderInfo.orderID →
    buildStatus env l m k =
      some (if exceptOk (env.cancelSpotOrder k) then "Success" else "Failed")
  | [], _, _, hk => by simp at hk
  | o :: rest, m, k, hk => by
    by_cases hk2 : k ∈ rest.map OrderInfo.orderID
    · simp only [buildStatus]
      exact buildStatus_mem env rest _ k hk2
    · have hk3 : k = o.orderID ∨ k ∈ rest.map OrderInfo.orderID := by
        simpa using hk
      have hko : k = o.orderID := by
        rcases hk3 with h | h
        · exact h
        · exact absurd h hk2
      simp only [buildStatus]
      rw [buildStatus_not_mem env rest _ k hk2]
      simp [mapSet, hko]

/-- C10: after fetching the open orders of the requested pair,
`CancelAllOrders` cancels each one individually, maps every open order id
to "Success" or "Failed" in the returned status map according to its own
cancel outcome, and itself returns a nil error — an individual cancel
failure never fails the operation. -/
theorem cancelAllOrders_contract (env : Env) (c : Coinbene)
    (oc : OrderCancel) (fpair : Pair) (orders : List OrderInfo)
    (hv : env.validateCancel oc = none)
    (hf : env.formatExchangeCurrency oc.pair oc.assetType = .ok fpair)
    (ho : env.fetchOpenSpotOrders fpair.str = .ok orders) :
    (CancelAllOrders env c oc).2 = none ∧
    ∀ o ∈ orders, (CancelAllOrders env c oc).1.status o.orderID =
      some (if exceptOk (env.cancelSpotOrder o.orderID) then "Success"
        else "Failed") := by
  constructor
  · simp [CancelAllOrders, hv, hf, ho]
  · intro o ho2
    have hst : (CancelAllOrders env c oc).1.status =
        buildStatus env orders (fun _ => none) := by
      simp [CancelAllOrders, hv, hf, ho]
    rw [hst]
    exact buildStatus_mem env orders _ o.orderID
      (List.mem_map_of_mem _ ho2)

/-- Environment for the C10 witness: two open orders, one cancel fails. -/
def env10 : Env :=
  { defaultEnv with
    fetchOpenSpotOrders := fun _ =>
      .ok [{ orderID := "A" }, { orderID := "B" }]
    cancelSpotOrder := fun id =>
      if id = "A" then .ok () else .error (.restError 1) }

/-- The cancellation request of the C10 witness. -/
def oc10 : OrderCancel := { pair := pairBTC, assetType := .spot, orderID := "" }

theorem cancelAllOrders_contract_witness :
    (CancelAllOrders env10 cB oc10).2 = none ∧
    (CancelAllOrders env10 cB oc10).1.status "B" =
      some (if exceptOk (env10.cancelSpotOrder "B") then "Success"
        else "Failed") :=
  ⟨(cancelAllOrders_contract env10 cB oc10 pairBTC
      [{ orderID := "A" }, { orderID := "B" }] rfl rfl rfl).1,
    (cancelAllOrders_contract env10 cB oc10 pairBTC
      [{ orderID := "A" }, { orderID := "B" }] rfl rfl rfl).2
      { orderID := "B" } (by decide)⟩
